import Mathlib

/-!
Shallow embedding of the HPC hotspot-analysis tool
(`src/matrix/analyze_hotspots.py`) and proofs about its
extraction, selection, classification and rollup behaviour.

Python strings are modelled as `List Char`; gprof floating-point
columns are modelled over `ℚ` (exact arithmetic); the fallible file
read is modelled by an `Option` input (`none` = unreadable path).
-/

/-- Characters of a Python string, modelled as a list of `Char`. -/
abbrev Chars := List Char

/-- Character list of a Lean string literal. -/
def tl (s : String) : Chars := s.toList

/-- Python `str.lower()` on the ASCII identifiers gprof emits. -/
def lowerL (s : Chars) : Chars := s.map Char.toLower

/-- One entry of the `recommendations` dictionary in
`generate_parallelization_recommendations`: the Python value
`None`/`True`/`False` of the `parallelizable` field becomes
`Option Bool` (`none` = unknown). -/
structure Verdict where
  parallelizable : Option Bool
  complexity : String
  pattern : String
  platforms : List String
  strategy : String
  justification : String
  deriving DecidableEq

/-- The `matrix_multiply` catalogue entry. -/
def matrixMultiplyRec : Verdict :=
  { parallelizable := some true
    complexity := "O(n³)"
    pattern := "Triple nested loops with independent (i,j) iterations"
    platforms := ["OpenMP", "CUDA"]
    strategy := "Block decomposition, GPU thread blocks for (i,j) pairs"
    justification := "Highly parallel, regular memory access, compute-intensive, no dependencies between result elements" }

/-- The `blocked_matrix_multiply` catalogue entry. -/
def blockedMatrixMultiplyRec : Verdict :=
  { parallelizable := some true
    complexity := "O(n³)"
    pattern := "Cache-blocked nested loops with independent blocks"
    platforms := ["OpenMP"]
    strategy := "Parallel execution of independent blocks using OpenMP collapse directive"
    justification := "Cache-friendly algorithm excellent for CPU parallelization, maintains locality" }

/-- The `matrix_vector_multiply` catalogue entry. -/
def matrixVectorMultiplyRec : Verdict :=
  { parallelizable := some true
    complexity := "O(n²)"
    pattern := "Matrix rows processed independently"
    platforms := ["OpenMP", "CUDA"]
    strategy := "Parallel loop over rows, or GPU threads per output element"
    justification := "Independent row computations, good memory locality, moderate parallelism" }

/-- The `data_preprocessing` catalogue entry. -/
def dataPreprocessingRec : Verdict :=
  { parallelizable := some true
    complexity := "O(n)"
    pattern := "Independent element-wise mathematical operations"
    platforms := ["OpenMP"]
    strategy := "SIMD vectorization with parallel for directive"
    justification := "Element-wise operations (sin, cos, sqrt), no dependencies, SIMD-friendly" }

/-- The `data_postprocessing` catalogue entry. -/
def dataPostprocessingRec : Verdict :=
  { parallelizable := some false
    complexity := "O(n)"
    pattern := "Sequential dependencies between array elements"
    platforms := ["Sequential only"]
    strategy := "Limited parallelization due to dependency chain"
    justification := "Each element depends on previous element (data[i] += data[i-1] * 0.05)" }

/-- The `vector_operations` catalogue entry. -/
def vectorOperationsRec : Verdict :=
  { parallelizable := some true
    complexity := "O(n)"
    pattern := "Element-wise vector computations"
    platforms := ["OpenMP", "CUDA"]
    strategy := "SIMD vectorization or GPU kernel launch"
    justification := "Embarrassingly parallel, high arithmetic intensity with sqrt, sin, cos operations" }

/-- The `initialize_data` catalogue entry. -/
def initDataRec : Verdict :=
  { parallelizable := some true
    complexity := "O(n²)"
    pattern := "Independent matrix element initialization"
    platforms := ["OpenMP"]
    strategy := "Parallel nested loops for matrix initialization"
    justification := "Independent computations with trigonometric functions per element" }

/-- The `calculate_checksum` catalogue entry. -/
def calculateChecksumRec : Verdict :=
  { parallelizable := some true
    complexity := "O(n²)"
    pattern := "Reduction operation over matrix elements"
    platforms := ["OpenMP"]
    strategy := "Parallel reduction with OpenMP reduction clause"
    justification := "Associative sum operation, perfect for parallel reduction" }

/-- The fallback verdict returned when no rule matches. -/
def unknownRec : Verdict :=
  { parallelizable := none
    complexity := "Unknown"
    pattern := "Requires manual analysis"
    platforms := ["Manual analysis needed"]
    strategy := "Profile function behavior and analyze dependencies"
    justification := "Function characteristics need detailed examination" }

/-- The `recommendations` dictionary, as the ordered association list
its Python 3.7+ insertion-order iteration exposes. -/
def recommendations : List (Chars × Verdict) :=
  [(tl "matrix_multiply", matrixMultiplyRec),
   (tl "blocked_matrix_multiply", blockedMatrixMultiplyRec),
   (tl "matrix_vector_multiply", matrixVectorMultiplyRec),
   (tl "data_preprocessing", dataPreprocessingRec),
   (tl "data_postprocessing", dataPostprocessingRec),
   (tl "vector_operations", vectorOperationsRec),
   (tl "initialize_data", initDataRec),
   (tl "calculate_checksum", calculateChecksumRec)]

/-- The `for key, rec in recommendations.items(): if key in function_name.lower(): return rec`
scan: first key that occurs inside the (already lowered) name wins. -/
def findRec (nameL : Chars) : List (Chars × Verdict) → Option Verdict
  | [] => none
  | (k, r) :: rest => if k <:+: nameL then some r else findRec nameL rest

/-- The classifier `generate_parallelization_recommendations`: ordered
catalogue scan, then the secondary keyword chain, then the unknown
fallback. -/
def generate_parallelization_recommendations (function_name : Chars) : Verdict :=
  let nl := lowerL function_name
  match findRec nl recommendations with
  | some r => r
  | none =>
    if tl "multiply" <:+: nl ∨ tl "matmul" <:+: nl then matrixMultiplyRec
    else if tl "vector" <:+: nl ∧ tl "multiply" <:+: nl then matrixVectorMultiplyRec
    else if tl "preprocess" <:+: nl then dataPreprocessingRec
    else if tl "postprocess" <:+: nl then dataPostprocessingRec
    else if tl "vector" <:+: nl then vectorOperationsRec
    else if tl "init" <:+: nl then initDataRec
    else if tl "sum" <:+: nl ∨ tl "checksum" <:+: nl then calculateChecksumRec
    else unknownRec

/-- One row of the flat profile as `parse_gprof_file` records it:
the dictionary appended at line 69 of the source.  The two float
columns are modelled over `ℚ`; `calls` stays the literal token. -/
structure FRecord where
  name : Chars
  time_percent : ℚ
  cumulative_seconds : ℚ
  self_seconds : ℚ
  calls : Chars
  deriving DecidableEq

/-- Python `str.strip()`. -/
def pyStrip (s : Chars) : Chars :=
  ((s.dropWhile Char.isWhitespace).reverse.dropWhile Char.isWhitespace).reverse

/-- Helper for `splitWs`: accumulates the current (reversed) token. -/
def splitWsAux : Chars → Chars → List Chars
  | [], cur => if cur = [] then [] else [cur.reverse]
  | c :: cs, cur =>
    if c.isWhitespace then
      if cur = [] then splitWsAux cs [] else cur.reverse :: splitWsAux cs []
    else splitWsAux cs (c :: cur)

/-- Python `str.split()` with no argument: maximal runs of
non-whitespace characters, empty tokens dropped. -/
def splitWs (s : Chars) : List Chars := splitWsAux s []

/-- Helper for `splitLinesL`. -/
def splitLinesAux : Chars → Chars → List Chars
  | [], cur => [cur.reverse]
  | c :: cs, cur =>
    if c = '\n' then cur.reverse :: splitLinesAux cs [] else splitLinesAux cs (c :: cur)

/-- Python `str.splitlines()` on newline-terminated text.  (A trailing
newline yields one extra empty line here; the row loop skips blank
lines, so the records produced are unaffected.) -/
def splitLinesL (s : Chars) : List Chars := splitLinesAux s []

/-- Numeric value of a digit string. -/
def digitsToNat (s : Chars) : Nat := s.foldl (fun n c => 10 * n + (c.toNat - 48)) 0

/-- Python `float(token)` on the decimal numerals a gprof flat profile
contains: optional sign, integer digits, optional fractional digits,
at least one digit overall; anything else raises `ValueError`, i.e.
returns `none`.  (Exponent/`inf`/`nan` forms never occur in this
format and are not modelled.) -/
def pyFloat (s : Chars) : Option ℚ :=
  let signed : ℤ × Chars :=
    match s with
    | '-' :: t => (-1, t)
    | '+' :: t => (1, t)
    | t => (1, t)
  let rest := signed.2
  let intPart := rest.takeWhile Char.isDigit
  match rest.dropWhile Char.isDigit with
  | [] => if intPart = [] then none else some (mkRat (signed.1 * digitsToNat intPart) 1)
  | '.' :: frac =>
    if frac.all Char.isDigit ∧ (intPart ≠ [] ∨ frac ≠ []) then
      some (mkRat (signed.1 * (digitsToNat intPart * 10 ^ frac.length + digitsToNat frac)) (10 ^ frac.length))
    else none
  | _ => none

/-- The `try` block of the row loop (lines 59-77 of the source): parse
the three float columns, keep `calls` literally unless it is the
placeholder token `null`, take the last token as the name, and drop
the row (`continue`) when a float fails to parse or `time_percent` or
`self_seconds` is negative. -/
def parseRow (parts : List Chars) : Option FRecord :=
  match pyFloat (parts.getD 0 []), pyFloat (parts.getD 1 []), pyFloat (parts.getD 2 []) with
  | some tp, some cs, some ss =>
    if tp < 0 ∨ ss < 0 then none
    else
      some { name := parts.getLastD []
             time_percent := tp
             cumulative_seconds := cs
             self_seconds := ss
             calls := if parts.getD 3 [] = tl "null" then tl "0" else parts.getD 3 [] }
  | _, _, _ => none

/-- The post-header part of the row loop: skip blank lines, stop at a
line starting with `Call graph`, skip secondary header fragments
(containing `name`, or starting with `cumulative` or `seconds`), skip
rows with fewer than 5 tokens, and collect the rows `parseRow`
accepts. -/
def scanRows : List Chars → List FRecord
  | [] => []
  | line :: rest =>
    let stripped := pyStrip line
    if stripped = [] then scanRows rest
    else if tl "Call graph" <+: stripped then []
    else if tl "name" <:+: lowerL stripped ∨ tl "cumulative" <+: stripped ∨ tl "seconds" <+: stripped then
      scanRows rest
    else
      let parts := splitWs stripped
      if parts.length < 5 then scanRows rest
      else
        match parseRow parts with
        | some r => r :: scanRows rest
        | none => scanRows rest

/-- The pre-header part of the row loop (`header_found = False`):
consume lines until one starts with `%` or, lowercased, with `time`;
return the lines after that header line.  If no header line occurs,
every line is consumed and no row is ever parsed. -/
def findHeader : List Chars → List Chars
  | [] => []
  | line :: rest =>
    let stripped := pyStrip line
    if stripped = [] then findHeader rest
    else if tl "%" <+: stripped ∨ tl "time" <+: lowerL stripped then rest
    else findHeader rest

/-- Characters after the first occurrence of `marker`, or `none` if
`marker` does not occur. -/
def dropToMarker (marker : Chars) : Chars → Option Chars
  | [] => if marker = [] then some [] else none
  | c :: cs =>
    if marker <+: (c :: cs) then some ((c :: cs).drop marker.length)
    else dropToMarker marker cs

/-- Longest prefix not containing `marker`. -/
def takeUntilMarker (marker : Chars) : Chars → Chars
  | [] => []
  | c :: cs => if marker <+: (c :: cs) then [] else c :: takeUntilMarker marker cs

/-- The regex step `re.search(r'Flat profile:(.*?)(?=\nCall graph|$)', content, re.DOTALL)`:
the captured group is the text after the first `Flat profile:`, up to
the first following `\nCall graph` (or the end of the text). -/
def flatSpan (content : Chars) : Option Chars :=
  (dropToMarker (tl "Flat profile:") content).map (takeUntilMarker (tl "\nCall graph"))

/-- The records of the flat-profile span in encounter order (the list
`functions` just before the final `sorted` call). -/
def rawRecords (span : Chars) : List FRecord := scanRows (findHeader (splitLinesL span))

/-- Descending-by-`time_percent` comparison used by the final
`sorted(functions, key=lambda x: x['time_percent'], reverse=True)`. -/
def tpGE (a b : FRecord) : Prop := b.time_percent ≤ a.time_percent

instance : DecidableRel tpGE := fun a b => inferInstanceAs (Decidable (b.time_percent ≤ a.time_percent))

instance : IsTotal FRecord tpGE := ⟨fun a b => le_total b.time_percent a.time_percent⟩

instance : IsTrans FRecord tpGE := ⟨fun _ _ _ h1 h2 => le_trans h2 h1⟩

/-- Python `sorted(..., key=..., reverse=True)` is a stable descending
sort; insertion sort under `tpGE` realizes exactly that. -/
def sortByTimeDesc (l : List FRecord) : List FRecord := l.insertionSort tpGE

/-- Body of `parse_gprof_file` after the file has been read into
`content`. -/
def parse_gprof_content (content : Chars) : Option (List FRecord) :=
  (flatSpan content).map (fun span => sortByTimeDesc (rawRecords span))

/-- The entry point `parse_gprof_file`.  The fallible read is modelled
by the `Option` input: `none` stands for a path that cannot be read
(the `not Path(filename).exists()` branch), `some content` for a
readable file with that text.  The Python return value `None` is
`none`; a parsed list is `some`. -/
def parse_gprof_file : Option Chars → Option (List FRecord)
  | none => none
  | some content => parse_gprof_content content

/-- The filter `analyze_hotspots(functions, threshold)`. -/
def analyze_hotspots (functions : List FRecord) (threshold : ℚ) : List FRecord :=
  if functions = [] then []
  else functions.filter (fun f => threshold ≤ f.time_percent)

/-- Python truthiness of the tri-state `parallelizable` field, as used
by `if rec['parallelizable']:` in `main`. -/
def truthy (o : Option Bool) : Bool := o.getD false

/-- The rollup `total_hotspot_time`: sum of `time_percent` over the
hotspot list, in loop order. -/
def total_hotspot_time (hotspots : List FRecord) : ℚ :=
  (hotspots.map (fun h => h.time_percent)).sum

/-- The rollup `parallelizable_time`: sum of `time_percent` over the
hotspots whose classification is truthy-parallelizable. -/
def parallelizable_time (hotspots : List FRecord) : ℚ :=
  ((hotspots.filter (fun h => truthy (generate_parallelization_recommendations h.name).parallelizable)).map
    (fun h => h.time_percent)).sum

/-- The efficiency rollup printed by `main`: the ratio is taken only
when `total_hotspot_time > 0`, else `0`. -/
def parallel_efficiency (hotspots : List FRecord) : ℚ :=
  if 0 < total_hotspot_time hotspots then
    parallelizable_time hotspots / total_hotspot_time hotspots * 100
  else 0

/-- The tier label printed by the `PLATFORM RECOMMENDATIONS` block of
`main`, as a function of `parallelizable_time`. -/
def platform_recommendation (p : ℚ) : String :=
  if 50 < p then "HIGH PARALLELIZATION POTENTIAL"
  else if 20 < p then "MODERATE PARALLELIZATION POTENTIAL"
  else "LIMITED PARALLELIZATION POTENTIAL"

/-- A sample hotspot record of a catalogued, parallelizable function. -/
def hsA : FRecord :=
  { name := tl "matrix_multiply", time_percent := 10, cumulative_seconds := 1,
    self_seconds := 1, calls := tl "5" }

/-- A sample hotspot record of the one non-parallelizable archetype. -/
def hsB : FRecord :=
  { name := tl "data_postprocessing", time_percent := 10, cumulative_seconds := 1,
    self_seconds := 1, calls := tl "5" }

/-- Catalogue scan result when no key occurs in the name. -/
theorem findRec_eq_none {nl : Chars} :
    ∀ {l : List (Chars × Verdict)}, (∀ p ∈ l, ¬ p.1 <:+: nl) → findRec nl l = none
  | [], _ => rfl
  | (k, r) :: rest, h => by
    have hk := h (k, r) (List.mem_cons_self _ _)
    simp only [findRec, if_neg hk]
    exact findRec_eq_none (fun p hp => h p (List.mem_cons_of_mem _ hp))

/-- Catalogue scan result at the first matching entry. -/
theorem findRec_append_first {nl k : Chars} {r : Verdict} {l2 : List (Chars × Verdict)}
    (hk : k <:+: nl) :
    ∀ l1 : List (Chars × Verdict), (∀ p ∈ l1, ¬ p.1 <:+: nl) →
      findRec nl (l1 ++ (k, r) :: l2) = some r
  | [], _ => by simp [findRec, if_pos hk]
  | (k', r') :: rest, h => by
    have hk' := h (k', r') (List.mem_cons_self _ _)
    simp only [List.cons_append, findRec, if_neg hk']
    exact findRec_append_first hk rest (fun p hp => h p (List.mem_cons_of_mem _ hp))

/-- C1 counterexample: the name `blocked_matrix_multiply` contains the
catalogue key `blocked_matrix_multiply`, but classification returns the
`matrix_multiply` verdict, which differs from the
`blocked_matrix_multiply` verdict.  The catalogue keys are not
disjoint: first-match-wins selects `matrix_multiply`. -/
theorem C1_counterexample :
    generate_parallelization_recommendations (tl "blocked_matrix_multiply") = matrixMultiplyRec ∧
    matrixMultiplyRec ≠ blockedMatrixMultiplyRec := by
  exact ⟨by decide, by decide⟩

/-- C1 (amended): first-match-wins over the fixed enumeration order
holds — for every catalogue entry `(k, r)` and every function name
that contains `k` (case-insensitively) but contains no key enumerated
earlier in the catalogue, classification returns `r`.  (The unamended
claim fails because the keys are not disjoint: `blocked_matrix_multiply`
contains `matrix_multiply`, which is enumerated first.) -/
theorem C1_first_match_wins (name k : Chars) (r : Verdict) (l1 l2 : List (Chars × Verdict))
    (hsplit : recommendations = l1 ++ (k, r) :: l2)
    (hk : k <:+: lowerL name)
    (hearlier : ∀ p ∈ l1, ¬ p.1 <:+: lowerL name) :
    generate_parallelization_recommendations name = r := by
  have hfind : findRec (lowerL name) recommendations = some r := by
    rw [hsplit]; exact findRec_append_first hk l1 hearlier
  simp [generate_parallelization_recommendations, hfind]

/-- C1 witness: a name containing `initialize_data` and none of the six
keys enumerated before it is classified with the `initialize_data`
verdict. -/
theorem C1_witness :
    generate_parallelization_recommendations (tl "x_initialize_data") = initDataRec := by
  exact C1_first_match_wins (tl "x_initialize_data") (tl "initialize_data") initDataRec
    [(tl "matrix_multiply", matrixMultiplyRec),
     (tl "blocked_matrix_multiply", blockedMatrixMultiplyRec),
     (tl "matrix_vector_multiply", matrixVectorMultiplyRec),
     (tl "data_preprocessing", dataPreprocessingRec),
     (tl "data_postprocessing", dataPostprocessingRec),
     (tl "vector_operations", vectorOperationsRec)]
    [(tl "calculate_checksum", calculateChecksumRec)]
    (by decide) (by decide) (by decide)

set_option maxHeartbeats 1000000 in
/-- C10: any occurrence of the key `blocked_matrix_multiply` inside a
name is also an occurrence of `matrix_multiply`, which is enumerated
first, so such names always receive the `matrix_multiply` verdict, and
no input name whatsoever is classified with the
`blocked_matrix_multiply` catalogue entry. -/
theorem C10_blocked_entry_unreachable (name : Chars) :
    (tl "blocked_matrix_multiply" <:+: lowerL name →
      generate_parallelization_recommendations name = matrixMultiplyRec) ∧
    generate_parallelization_recommendations name ≠ blockedMatrixMultiplyRec := by
  have hshadow : ∀ nl : Chars, tl "blocked_matrix_multiply" <:+: nl → tl "matrix_multiply" <:+: nl :=
    fun nl h =>
      (show tl "matrix_multiply" <:+: tl "blocked_matrix_multiply" by decide).trans h
  constructor
  · intro hm
    have hmm := hshadow _ hm
    simp [generate_parallelization_recommendations, recommendations, findRec, if_pos hmm]
  · by_cases h1 : tl "matrix_multiply" <:+: lowerL name
    · simp only [generate_parallelization_recommendations, recommendations, findRec, if_pos h1]
      decide
    · have h2 : ¬ tl "blocked_matrix_multiply" <:+: lowerL name := fun h => h1 (hshadow _ h)
      simp only [generate_parallelization_recommendations, recommendations, findRec,
        if_neg h1, if_neg h2]
      split_ifs <;> decide

/-- C10 witness: a concrete name containing `blocked_matrix_multiply`
receives the `matrix_multiply` verdict, not the blocked entry. -/
theorem C10_witness :
    generate_parallelization_recommendations (tl "fast_blocked_matrix_multiply_v2") = matrixMultiplyRec ∧
    generate_parallelization_recommendations (tl "fast_blocked_matrix_multiply_v2") ≠ blockedMatrixMultiplyRec :=
  ⟨(C10_blocked_entry_unreachable (tl "fast_blocked_matrix_multiply_v2")).1 (by decide),
   (C10_blocked_entry_unreachable (tl "fast_blocked_matrix_multiply_v2")).2⟩

/-- C8: a name matching no catalogue key and no secondary-heuristic
keyword is classified with the complete unknown verdict — a fully
populated record, not an error. -/
theorem C8_unknown_fallback (name : Chars)
    (hcat : ∀ p ∈ recommendations, ¬ p.1 <:+: lowerL name)
    (h1 : ¬ tl "multiply" <:+: lowerL name) (h2 : ¬ tl "matmul" <:+: lowerL name)
    (h3 : ¬ tl "preprocess" <:+: lowerL name) (h4 : ¬ tl "postprocess" <:+: lowerL name)
    (h5 : ¬ tl "vector" <:+: lowerL name) (h6 : ¬ tl "init" <:+: lowerL name)
    (h7 : ¬ tl "sum" <:+: lowerL name) (h8 : ¬ tl "checksum" <:+: lowerL name) :
    generate_parallelization_recommendations name =
      { parallelizable := none
        complexity := "Unknown"
        pattern := "Requires manual analysis"
        platforms := ["Manual analysis needed"]
        strategy := "Profile function behavior and analyze dependencies"
        justification := "Function characteristics need detailed examination" } := by
  have hfind : findRec (lowerL name) recommendations = none := findRec_eq_none hcat
  simp [generate_parallelization_recommendations, hfind, h1, h2, h3, h4, h5, h6, h7, h8,
    unknownRec]

/-- C8 witness: the unmatched name of the claim, `foo_bar_baz`. -/
theorem C8_witness :
    generate_parallelization_recommendations (tl "foo_bar_baz") =
      { parallelizable := none
        complexity := "Unknown"
        pattern := "Requires manual analysis"
        platforms := ["Manual analysis needed"]
        strategy := "Profile function behavior and analyze dependencies"
        justification := "Function characteristics need detailed examination" } :=
  C8_unknown_fallback (tl "foo_bar_baz") (by decide) (by decide) (by decide) (by decide)
    (by decide) (by decide) (by decide) (by decide) (by decide)

/-- C9: the tier label is a function of `parallelizable_time` with the
boundary values 50 and 20 falling into the lower tier. -/
theorem C9_tier_boundaries (p : ℚ) :
    (50 < p → platform_recommendation p = "HIGH PARALLELIZATION POTENTIAL") ∧
    (20 < p → p ≤ 50 → platform_recommendation p = "MODERATE PARALLELIZATION POTENTIAL") ∧
    (p ≤ 20 → platform_recommendation p = "LIMITED PARALLELIZATION POTENTIAL") := by
  refine ⟨fun h => ?_, fun h1 h2 => ?_, fun h => ?_⟩
  · rw [platform_recommendation, if_pos h]
  · rw [platform_recommendation, if_neg (not_lt.2 h2), if_pos h1]
  · have h50 : p ≤ 50 := h.trans (by norm_num)
    rw [platform_recommendation, if_neg (not_lt.2 h50), if_neg (not_lt.2 h)]

/-- C9 witness: the tier labels at 60, at the boundary 50, and at the
boundary 20. -/
theorem C9_witness :
    platform_recommendation 60 = "HIGH PARALLELIZATION POTENTIAL" ∧
    platform_recommendation 50 = "MODERATE PARALLELIZATION POTENTIAL" ∧
    platform_recommendation 20 = "LIMITED PARALLELIZATION POTENTIAL" :=
  ⟨(C9_tier_boundaries 60).1 (by norm_num),
   (C9_tier_boundaries 50).2.1 (by norm_num) (by norm_num),
   (C9_tier_boundaries 20).2.2 (by norm_num)⟩

/-- C5: hotspot selection is a pure inclusive filter that preserves
order (it is a sublist of its input), maps empty input to an empty
list, and is antitone in the threshold: a lower threshold selects a
superset. -/
theorem C5_selection_filter (l : List FRecord) (t t1 t2 : ℚ) :
    analyze_hotspots l t = l.filter (fun f => t ≤ f.time_percent) ∧
    analyze_hotspots [] t = [] ∧
    List.Sublist (analyze_hotspots l t) l ∧
    (t1 < t2 → ∀ r ∈ analyze_hotspots l t2, r ∈ analyze_hotspots l t1) := by
  have key : ∀ s : ℚ, analyze_hotspots l s = l.filter (fun f => s ≤ f.time_percent) := by
    intro s; cases l <;> simp [analyze_hotspots]
  refine ⟨key t, by simp [analyze_hotspots], ?_, ?_⟩
  · rw [key t]; exact List.filter_sublist l
  · intro hlt r hr
    rw [key t2] at hr; rw [key t1]
    rcases List.mem_filter.1 hr with ⟨hmem, hp⟩
    refine List.mem_filter.2 ⟨hmem, ?_⟩
    exact decide_eq_true (le_trans hlt.le (of_decide_eq_true hp))

/-- C5 witness: selection at threshold 1 on a one-record list, and the
superset direction applied with thresholds 1 < 2. -/
theorem C5_witness :
    analyze_hotspots [hsA] 1 = [hsA].filter (fun f => (1 : ℚ) ≤ f.time_percent) ∧
    hsA ∈ analyze_hotspots [hsA] 1 :=
  ⟨(C5_selection_filter [hsA] 1 1 2).1,
   (C5_selection_filter [hsA] 1 1 2).2.2.2 (by norm_num) hsA (by with_unfolding_all decide)⟩

/-- C6 counterexample: a row whose calls token `abc` is non-numeric is
accepted with `calls = "abc"`, not with the sentinel `"0"` the claim
requires. -/
theorem C6_counterexample :
    parseRow [tl "1.0", tl "2.0", tl "3.0", tl "abc", tl "fn"] =
      some { name := tl "fn", time_percent := 1, cumulative_seconds := 2,
             self_seconds := 3, calls := tl "abc" } ∧
    pyFloat (tl "abc") = none ∧ tl "abc" ≠ tl "0" := by
  refine ⟨by with_unfolding_all decide, by decide, by decide⟩

/-- C6 (amended): for every accepted row, `calls` is the sentinel `"0"`
exactly when token 3 is the reserved placeholder `null`; every other
token — numeric or not — is kept literally. -/
theorem C6_calls_placeholder (parts : List Chars) (r : FRecord)
    (h : parseRow parts = some r) :
    r.calls = if parts.getD 3 [] = tl "null" then tl "0" else parts.getD 3 [] := by
  simp only [parseRow] at h
  split at h
  · split at h
    · exact absurd h (by simp)
    · cases h; rfl
  · exact absurd h (by simp)

/-- Concrete row whose calls token is the placeholder `null`. -/
def nullParts : List Chars := [tl "1.0", tl "2.0", tl "3.0", tl "null", tl "fn"]

/-- The record `parseRow` produces from `nullParts`. -/
def nullRec : FRecord :=
  { name := tl "fn", time_percent := 1, cumulative_seconds := 2,
    self_seconds := 3, calls := tl "0" }

/-- C6 witness: the placeholder row maps to the `"0"` sentinel. -/
theorem C6_witness :
    nullRec.calls = if nullParts.getD 3 [] = tl "null" then tl "0" else nullParts.getD 3 [] :=
  C6_calls_placeholder nullParts nullRec (by with_unfolding_all decide)

/-- C2 counterexample: the unreadable-path outcome and the
missing-flat-profile-section outcome are both returned as the same
value (Python `None`), so the four outcomes are not pairwise
distinguishable by return value. -/
theorem C2_counterexample :
    parse_gprof_file none = none ∧
    parse_gprof_file (some (tl "no marker in sight")) = none ∧
    parse_gprof_file none = parse_gprof_file (some (tl "no marker in sight")) :=
  ⟨rfl, by decide, by decide⟩

/-- C2 (amended): the entry point returns three mutually
distinguishable return values, not four: `none` covers both the
unreadable path and the missing `Flat profile:` section (the two are
told apart only by the printed diagnostic), an empty list covers a
section with zero valid rows, and a populated list covers valid
rows. -/
theorem C2_three_outcomes :
    parse_gprof_file none = none ∧
    parse_gprof_file (some (tl "no marker in sight")) = none ∧
    parse_gprof_file (some (tl "Flat profile:\n% time\n")) = some [] ∧
    parse_gprof_file (some (tl "Flat profile:\n% time\n10.0 1.0 1.0 5 matrix_multiply\n")) =
      some [hsA] ∧
    some ([] : List FRecord) ≠ (none : Option (List FRecord)) ∧
    some [hsA] ≠ some ([] : List FRecord) :=
  ⟨rfl, by decide, by with_unfolding_all decide, by with_unfolding_all decide,
   by decide, by decide⟩

/-- C3 counterexample: one hotspot whose verdict is not parallelizable
(`data_postprocessing`, 10%) gives `parallel_efficiency = 0` while
`total_hotspot_time = 10 ≠ 0`, refuting the claimed equivalence of
`parallel_efficiency = 0` with `total_hotspot_time = 0`. -/
theorem C3_counterexample :
    parallel_efficiency [hsB] = 0 ∧ total_hotspot_time [hsB] ≠ 0 :=
  ⟨by with_unfolding_all decide, by with_unfolding_all decide⟩

/-- C3 (amended): for hotspot lists with non-negative `time_percent`
(an invariant of extracted records), `parallel_efficiency` lies in
`[0, 100]`, and it is `0` exactly when `parallelizable_time` is `0` —
which is implied by, but not equivalent to, `total_hotspot_time = 0`. -/
theorem C3_efficiency_range (hs : List FRecord)
    (hnn : ∀ r ∈ hs, 0 ≤ r.time_percent) :
    0 ≤ parallel_efficiency hs ∧ parallel_efficiency hs ≤ 100 ∧
    (parallel_efficiency hs = 0 ↔ parallelizable_time hs = 0) := by
  have hmap : ∀ x ∈ hs.map (fun h => h.time_percent), (0 : ℚ) ≤ x := by
    intro x hx
    rcases List.mem_map.1 hx with ⟨a, ha, rfl⟩
    exact hnn a ha
  have htot : 0 ≤ total_hotspot_time hs := List.sum_nonneg hmap
  have hsub :
      List.Sublist
        ((hs.filter fun h =>
            truthy (generate_parallelization_recommendations h.name).parallelizable).map
          fun h => h.time_percent)
        (hs.map fun h => h.time_percent) :=
    (List.filter_sublist hs).map _
  have hple : parallelizable_time hs ≤ total_hotspot_time hs :=
    List.Sublist.sum_le_sum hsub hmap
  have hpar : 0 ≤ parallelizable_time hs :=
    List.sum_nonneg fun x hx => hmap x (hsub.subset hx)
  unfold parallel_efficiency
  by_cases h : 0 < total_hotspot_time hs
  · rw [if_pos h]
    have hratio : parallelizable_time hs / total_hotspot_time hs ≤ 1 := (div_le_one h).2 hple
    refine ⟨mul_nonneg (div_nonneg hpar htot) (by norm_num), ?_, ?_⟩
    · have := mul_le_mul_of_nonneg_right hratio (by norm_num : (0 : ℚ) ≤ 100)
      simpa using this
    · constructor
      · intro he
        rcases mul_eq_zero.1 he with h0 | h0
        · rcases div_eq_zero_iff.1 h0 with h0 | h0
          · exact h0
          · exact absurd h0 h.ne'
        · exact absurd h0 (by norm_num)
      · intro hp
        rw [hp]
        simp
  · rw [if_neg h]
    have htz : total_hotspot_time hs = 0 := le_antisymm (not_lt.1 h) htot
    have hpz : parallelizable_time hs = 0 := le_antisymm (htz ▸ hple) hpar
    exact ⟨le_refl 0, by norm_num, by simp [hpz]⟩

/-- C3 witness: the bounds and the zero characterization at a concrete
one-hotspot list with non-negative time share. -/
theorem C3_witness :
    0 ≤ parallel_efficiency [hsA] ∧ parallel_efficiency [hsA] ≤ 100 ∧
    (parallel_efficiency [hsA] = 0 ↔ parallelizable_time [hsA] = 0) :=
  C3_efficiency_range [hsA] (by with_unfolding_all decide)

/-- Filtering the records with one exact `time_percent` value commutes
with a descending ordered insert: the inserted record lands in front
of every record with the same key (it only passes records with a
strictly larger key). -/
theorem filter_orderedInsert (q : ℚ) (x : FRecord) :
    ∀ l : List FRecord,
      (List.orderedInsert tpGE x l).filter (fun r => r.time_percent = q) =
        if x.time_percent = q then x :: l.filter (fun r => r.time_percent = q)
        else l.filter (fun r => r.time_percent = q)
  | [] => by
    by_cases hx : x.time_percent = q <;> simp [List.orderedInsert, List.filter_cons, hx]
  | b :: l => by
    by_cases hxb : tpGE x b
    · rw [List.orderedInsert, if_pos hxb]
      by_cases hx : x.time_percent = q <;> simp [List.filter_cons, hx]
    · rw [List.orderedInsert, if_neg hxb]
      have hlt : x.time_percent < b.time_percent := not_le.1 hxb
      by_cases hb : b.time_percent = q
      · have hx : x.time_percent ≠ q := by
          rw [← hb]; exact ne_of_lt hlt
        simp [List.filter_cons, hb, hx, filter_orderedInsert q x l]
      · by_cases hx : x.time_percent = q <;>
          simp [List.filter_cons, hb, hx, filter_orderedInsert q x l]

/-- Stability of the final sort: for every key value, the records with
that exact `time_percent` appear in the sorted output in their
original encounter order. -/
theorem filter_sortByTimeDesc (q : ℚ) :
    ∀ l : List FRecord,
      (sortByTimeDesc l).filter (fun r => r.time_percent = q) =
        l.filter (fun r => r.time_percent = q)
  | [] => rfl
  | x :: l => by
    have ih := filter_sortByTimeDesc q l
    simp only [sortByTimeDesc, List.insertionSort] at ih ⊢
    rw [filter_orderedInsert q x (List.insertionSort tpGE l)]
    by_cases hx : x.time_percent = q <;> simp [List.filter_cons, hx, ih]

/-- C4: whenever the flat-profile section is present, the Extractor
returns the stable descending sort of the records in encounter order:
the result is sorted by `time_percent` descending, and for every key
value the relative order of equal-key records is their original
encounter order (their filtered subsequences coincide). -/
theorem C4_sorted_stable (content span : Chars) (hspan : flatSpan content = some span) :
    parse_gprof_file (some content) = some (sortByTimeDesc (rawRecords span)) ∧
    List.Sorted (fun a b => b.time_percent ≤ a.time_percent) (sortByTimeDesc (rawRecords span)) ∧
    ∀ q : ℚ, (sortByTimeDesc (rawRecords span)).filter (fun r => r.time_percent = q) =
      (rawRecords span).filter (fun r => r.time_percent = q) := by
  refine ⟨?_, ?_, fun q => filter_sortByTimeDesc q (rawRecords span)⟩
  · simp [parse_gprof_file, parse_gprof_content, hspan]
  · exact List.sorted_insertionSort tpGE (rawRecords span)

/-- A two-row profile given in ascending order. -/
def sampleContent : Chars := tl "Flat profile:\n% time\n1.0 1.0 1.0 1 f\n2.0 2.0 2.0 2 g\n"

/-- The flat-profile span of `sampleContent`. -/
def sampleSpan : Chars := tl "\n% time\n1.0 1.0 1.0 1 f\n2.0 2.0 2.0 2 g\n"

/-- C4 witness: the Extractor output on a concrete two-row profile is
the stable descending sort of its encounter-order records. -/
theorem C4_witness :
    parse_gprof_file (some sampleContent) = some (sortByTimeDesc (rawRecords sampleSpan)) ∧
    List.Sorted (fun a b => b.time_percent ≤ a.time_percent) (sortByTimeDesc (rawRecords sampleSpan)) :=
  ⟨(C4_sorted_stable sampleContent sampleSpan (by decide)).1,
   (C4_sorted_stable sampleContent sampleSpan (by decide)).2.1⟩

/-- What the row loop does with one post-header line that is not a
`Call graph` terminator: `none` when the line is skipped (blank,
header fragment, under-length, or rejected by `parseRow`), `some r`
when it yields the record `r`. -/
def rowOf (line : Chars) : Option FRecord :=
  let stripped := pyStrip line
  if stripped = [] then none
  else if tl "name" <:+: lowerL stripped ∨ tl "cumulative" <+: stripped ∨ tl "seconds" <+: stripped then
    none
  else if (splitWs stripped).length < 5 then none
  else parseRow (splitWs stripped)

/-- Length of a `filterMap` as a count of accepted elements. -/
theorem length_filterMap_eq {α β : Type _} (f : α → Option β) :
    ∀ l : List α, (l.filterMap f).length = (l.filter (fun a => (f a).isSome)).length
  | [] => rfl
  | a :: l => by
    cases hf : f a <;>
      simp [List.filterMap_cons, List.filter_cons, hf, length_filterMap_eq f l]

/-- The row loop is a line-wise `filterMap` as long as no line begins
the `Call graph` terminator: malformed lines are skipped independently
and never disturb neighbouring rows. -/
theorem scanRows_eq_filterMap : ∀ lines : List Chars,
    (∀ l ∈ lines, ¬ tl "Call graph" <+: pyStrip l) →
    scanRows lines = lines.filterMap rowOf
  | [], _ => rfl
  | line :: rest, h => by
    have hcg : ¬ tl "Call graph" <+: pyStrip line := h line (List.mem_cons_self _ _)
    have ih := scanRows_eq_filterMap rest (fun l hl => h l (List.mem_cons_of_mem _ hl))
    by_cases hb : pyStrip line = []
    · simp [scanRows, rowOf, hb, ih]
    · by_cases hh : tl "name" <:+: lowerL (pyStrip line) ∨ tl "cumulative" <+: pyStrip line ∨
          tl "seconds" <+: pyStrip line
      · simp [scanRows, rowOf, hb, hcg, hh, ih]
      · by_cases h5 : (splitWs (pyStrip line)).length < 5
        · simp [scanRows, rowOf, hb, hcg, hh, h5, ih]
        · cases hp : parseRow (splitWs (pyStrip line)) with
          | none => simp [scanRows, rowOf, hb, hcg, hh, h5, hp, ih]
          | some r => simp [scanRows, rowOf, hb, hcg, hh, h5, hp, ih]

/-- C7 (amended): extraction is total by construction and processes
lines independently — for any post-header line list in which no line
starts the `Call graph` terminator, the records are exactly the
per-line accepted rows, in order, and their number is the number of
accepted lines.  (The unamended claim fails because a row is also
skipped when it merely resembles a header: contains `name`
case-insensitively, or starts with `cumulative` or `seconds`.) -/
theorem C7_interleaved_extraction (lines : List Chars)
    (hnb : ∀ l ∈ lines, ¬ tl "Call graph" <+: pyStrip l) :
    scanRows lines = lines.filterMap rowOf ∧
    (scanRows lines).length = (lines.filter (fun l => (rowOf l).isSome)).length := by
  refine ⟨scanRows_eq_filterMap lines hnb, ?_⟩
  rw [scanRows_eq_filterMap lines hnb]
  exact length_filterMap_eq rowOf lines

/-- C7 counterexample: a row with 6 whitespace tokens whose
`time_percent`, `cumulative_seconds` and `self_seconds` tokens all
parse non-negative — well-formed in the claim's sense — yields no
record, because its name field contains `name`; so N well-formed rows
do not always yield N records. -/
theorem C7_counterexample :
    scanRows [tl "5.00 2.00 1.00 3 username extra"] = [] ∧
    (splitWs (pyStrip (tl "5.00 2.00 1.00 3 username extra"))).length = 6 ∧
    pyFloat (tl "5.00") = some 5 ∧ pyFloat (tl "2.00") = some 2 ∧ pyFloat (tl "1.00") = some 1 :=
  ⟨by with_unfolding_all decide, by decide, by with_unfolding_all decide,
   by with_unfolding_all decide, by with_unfolding_all decide⟩

/-- One well-formed row interleaved with three noise lines. -/
def noiseLines : List Chars :=
  [tl " 12.50  1.20  1.00  500  matrix_multiply", tl "garbage line", tl "",
   tl "0.40 x 0.01 10 helper"]

/-- C7 witness: on a concrete interleaving of one well-formed row with
noise lines, the row loop is the line-wise `filterMap`. -/
theorem C7_witness : scanRows noiseLines = noiseLines.filterMap rowOf :=
  (C7_interleaved_extraction noiseLines (by decide)).1
